import Mathlib

/-!
Verification of the toolbox library (tsawler/toolbox) against its
specification: a shallow embedding, in Lean, of the pure content of
tools.go and the SQL query-file loader, with theorems settling the
spec's claims about RandomString, UploadFiles/UploadOneFile, ReadJSON,
ReadXML, Slugify and parseSQLQueries.

Modelling conventions:
  * Go strings are Lean `String`s; where character-level recursion is
    needed the embedding works on `List Char` (Go iterates runes in the
    relevant code paths).
  * Go `int`/`int64` are Lean `Int`.
  * Calls into the Go standard library that draw on the outside world
    (the random source, the HTTP body decoder, the multipart reader,
    the filesystem) are modelled by passing their outcomes in as
    arguments: e.g. `ReadJSON`'s two `dec.Decode` calls become two
    decode-outcome arguments, and `RandomString`'s stream of
    `crypto/rand.Prime` outputs becomes a list of naturals.
  * The filesystem is the list of file paths created so far; mutation
    of the `*Tools` receiver is returned as the final `Tools` value.
-/

namespace Toolbox

/-- The constant `randomStringSource` of tools.go line 21, as its list of
runes (`r := []rune(randomStringSource)` in RandomString). -/
def randomStringSource : List Char :=
  ("abcdefghijklmnopqrstuvwxyzABCDEFGHIJKLMNOPQRSTUVWXYZ0987654321_+").data

/-- The constant `defaultMaxUpload` of tools.go line 24 (10 mb). -/
def defaultMaxUpload : Int := 10485760

/-- The configuration struct `Tools` of tools.go lines 28-36. The two
`*log.Logger` fields (`ErrorLog`, `InfoLog`) are pointers that none of the
embedded methods ever reads or assigns, so they are not modelled. -/
structure Tools where
  MaxJSONSize : Int
  MaxXMLSize : Int
  MaxFileSize : Int
  AllowedFileTypes : List String
  AllowUnknownFields : Bool

/-- ASCII lower-casing of one character; stands for what
`strings.ToLower` / `strings.EqualFold` do on the ASCII range (the
library compares MIME types and the literal "application/json", which
are ASCII). -/
def lowerChar (c : Char) : Char :=
  if 'A' ≤ c ∧ c ≤ 'Z' then Char.ofNat (c.toNat + 32) else c

/-- `strings.ToLower`, modelled on the ASCII range. -/
def lowerStr (s : String) : String :=
  String.mk (s.data.map lowerChar)

/-- `strings.EqualFold`, modelled as equality after ASCII lower-casing. -/
def eqFold (a b : String) : Bool :=
  lowerStr a == lowerStr b

/-- One character of RandomString (tools.go 180-182): `r[x%y]` where
`x = p.Uint64()` for the prime `p` returned by
`rand.Prime(rand.Reader, len(r))` and `y = uint64(len(r))`. A prime of
exactly 64 bits fits in a uint64, so `p.Uint64() = p`. -/
def randomChar (p : Nat) : Char :=
  randomStringSource.getD (p % randomStringSource.length) ' '

/-- Shallow embedding of `RandomString` (tools.go 176-185). `ps` is the
stream of primes the successive `rand.Prime(rand.Reader, 64)` calls
return, one per position. -/
def randomString (ps : List Nat) (n : Nat) : List Char :=
  (List.range n).map (fun i => randomChar (ps.getD i 0))

/-- What `crypto/rand.Prime(rand.Reader, 64)` guarantees about each value
it hands to RandomString: a prime of exactly 64 bits. -/
def primeOutput64 (p : Nat) : Prop :=
  Nat.Prime p ∧ 2 ^ 63 ≤ p ∧ p < 2 ^ 64

/-- The struct `UploadedFile` of tools.go lines 230-234. -/
structure UploadedFile where
  NewFileName : String
  OriginalFileName : String
  FileSize : Int

/-- One file part of the parsed multipart form: its `*multipart.FileHeader`
name and size, and the content type `http.DetectContentType` (Go standard
library) reports for its first 512 bytes. -/
structure FilePart where
  filename : String
  size : Int
  sniffed : String

/-- Helper of `goExt`: walks the reversed character list, carrying the
suffix collected so far; stops with "" at a path separator, or with the
dot-prefixed suffix at the first dot found. -/
def goExtLoop : List Char → List Char → List Char
  | [], _ => []
  | c :: rest, suffix =>
    if c = '/' then []
    else if c = '.' then '.' :: suffix
    else goExtLoop rest (c :: suffix)

/-- `filepath.Ext` (Go standard library): the suffix of the final path
element beginning at its last dot, or "" when there is none. -/
def goExt (s : String) : String :=
  String.mk (goExtLoop s.data.reverse [])

/-- The error text of tools.go line 293 (its `%d` rendered). -/
def fileTooBigMsg (m : Int) : String :=
  "the uploaded file is too big, and must be less than " ++ toString m

/-- The error text of tools.go line 315. -/
def fileTypeNotPermittedMsg : String :=
  "the uploaded file type is not permitted"

/-- The per-file loop of `UploadFiles` (tools.go 282-351): for each header,
check the size against `t.MaxFileSize`, sniff the content type and check it
case-insensitively against `t.AllowedFileTypes` (empty list = allow all),
then create the (possibly renamed) destination file and record it. On the
first failing file the whole call returns the error and the accumulated
records are dropped (the closure assigns `uploadedFiles = nil`). `rnd i` is
the `t.RandomString(25)` value drawn for the i-th file; `fsys` is the list
of file paths created so far; `hdr.Open`, the 512-byte read, `Seek`,
`os.Create` and `io.Copy` are modelled as succeeding, with the copied byte
count equal to `hdr.Size`. -/
def processParts (t : Tools) (uploadDir : String) (renameFile : Bool)
    (rnd : Nat → String) :
    Nat → List FilePart → List UploadedFile → List String →
    (Except String (List UploadedFile)) × List String
  | _, [], acc, fsys => (Except.ok acc, fsys)
  | i, hdr :: rest, acc, fsys =>
    if hdr.size > t.MaxFileSize then
      (Except.error (fileTooBigMsg t.MaxFileSize), fsys)
    else
      let filetype := hdr.sniffed
      let allowed :=
        if !t.AllowedFileTypes.isEmpty then
          t.AllowedFileTypes.any (fun x => eqFold filetype x)
        else true
      if !allowed then
        (Except.error fileTypeNotPermittedMsg, fsys)
      else
        let newFileName :=
          if renameFile then rnd i ++ goExt hdr.filename else hdr.filename
        let path := uploadDir ++ "/" ++ newFileName
        let uf : UploadedFile :=
          { NewFileName := newFileName, OriginalFileName := hdr.filename,
            FileSize := hdr.size }
        processParts t uploadDir renameFile rnd (i + 1) rest (acc ++ [uf])
          (fsys ++ [path])

/-- The receiver mutation of tools.go lines 271-274: a zero `MaxFileSize`
is overwritten with `defaultMaxUpload` on the caller's `*Tools`. -/
def mutatedTools (t : Tools) : Tools :=
  if t.MaxFileSize = 0 then { t with MaxFileSize := defaultMaxUpload } else t

/-- Shallow embedding of `UploadFiles` (tools.go 256-353). `r` is the list
of file parts of the request's multipart form (every header of every file
field, in iteration order); directory creation and `ParseMultipartForm`
are modelled as succeeding. Returns the result, the filesystem after the
call, and the `Tools` value the receiver holds after the call. -/
def uploadFiles (t : Tools) (r : List FilePart) (uploadDir : String)
    (renameFile : Bool) (rnd : Nat → String) (fsys : List String) :
    (Except String (List UploadedFile)) × List String × Tools :=
  let t2 := mutatedTools t
  let pr := processParts t2 uploadDir renameFile rnd 0 r [] fsys
  (pr.1, pr.2, t2)

/-- The outcome of `UploadOneFile`: a returned error, a normal return of
`files[0]`, or the run-time index-out-of-range panic Go raises when
`files[0]` is evaluated on an empty slice. -/
inductive OneFileResult where
  | failure (msg : String)
  | indexOutOfRange
  | ok (f : UploadedFile)

/-- Shallow embedding of `UploadOneFile` (tools.go 238-250): delegate to
`UploadFiles`, propagate its error, otherwise return `files[0]` — which is
the out-of-range panic when the returned list is empty. -/
def uploadOneFile (t : Tools) (r : List FilePart) (uploadDir : String)
    (renameFile : Bool) (rnd : Nat → String) (fsys : List String) :
    OneFileResult × List String × Tools :=
  let pr := uploadFiles t r uploadDir renameFile rnd fsys
  (match pr.1 with
   | Except.error e => OneFileResult.failure e
   | Except.ok [] => OneFileResult.indexOutOfRange
   | Except.ok (f :: _) => OneFileResult.ok f,
   pr.2.1, pr.2.2)

/-- Go's `%q` on a plain field name (json.UnmarshalTypeError.Field). -/
def quoteStr (s : String) : String := "\"" ++ s ++ "\""

/-- The outcome of one `dec.Decode` call of `ReadJSON`, one constructor per
arm of the error classification switch of tools.go lines 95-126:
`json.SyntaxError`, `io.ErrUnexpectedEOF`, `json.UnmarshalTypeError`,
`io.EOF`, the "json: unknown field " message (carrying the already-trimmed
field name), the `http.MaxBytesReader` "http: request body too large"
error, `json.InvalidUnmarshalError`, and any other error. -/
inductive JDecodeResult where
  | success
  | badlyFormed (offset : Int)
  | unexpectedEOF
  | typeErr (field : String) (offset : Int)
  | eof
  | unknownField (fieldName : String)
  | tooLarge
  | invalidUnmarshal (msg : String)
  | otherErr (msg : String)
  deriving DecidableEq

/-- The effective JSON size limit of tools.go lines 76-82: `MaxJSONSize`
when non-zero, else `defaultMaxUpload`. -/
def effectiveMaxJSONSize (t : Tools) : Int :=
  if t.MaxJSONSize ≠ 0 then t.MaxJSONSize else defaultMaxUpload

/-- The message `ReadJSON` returns for each outcome of its first decode
(tools.go lines 95-126), with `maxBytes` the effective limit. -/
def decodeErrMsg (maxBytes : Int) : JDecodeResult → Option String
  | JDecodeResult.success => none
  | JDecodeResult.badlyFormed off =>
    some ("body contains badly-formed JSON (at character " ++ toString off ++ ")")
  | JDecodeResult.unexpectedEOF => some "body contains badly-formed JSON"
  | JDecodeResult.typeErr f off =>
    some ("body contains incorrect JSON type for field " ++ quoteStr f ++
      " at offset " ++ toString off)
  | JDecodeResult.eof => some "body must not be empty"
  | JDecodeResult.unknownField n => some ("body contains unknown key " ++ n)
  | JDecodeResult.tooLarge =>
    some ("body must not be larger than " ++ toString maxBytes ++ " bytes")
  | JDecodeResult.invalidUnmarshal m => some ("error unmarshalling json: " ++ m)
  | JDecodeResult.otherErr m => some m

/-- Shallow embedding of `ReadJSON` (tools.go 65-134). `contentType` is
`r.Header.Get("Content-Type")` ("" when absent); `first` and `second` are
the outcomes of the two `dec.Decode` calls (the second into a throwaway
value). Returns `none` for a nil error, `some msg` for the returned error's
text. The unknown-field toggle (lines 88-90) only influences which `first`
outcome the decoder produces, so it does not appear here. -/
def readJSON (t : Tools) (contentType : String)
    (first second : JDecodeResult) : Option String :=
  if contentType ≠ "" ∧ lowerStr contentType ≠ "application/json" then
    some "the Content-Type header is not application/json"
  else
    match decodeErrMsg (effectiveMaxJSONSize t) first with
    | some msg => some msg
    | none =>
      if second = JDecodeResult.eof then none
      else some "body must only contain a single JSON value"

/-- The outcome of one `dec.Decode` call of `ReadXML`: success, the `io.EOF`
error, or any other error (returned verbatim by lines 422-425). -/
inductive XDecodeResult where
  | success
  | eofErr
  | otherXmlErr (msg : String)
  deriving DecidableEq

/-- Shallow embedding of `ReadXML` (tools.go 410-433): a first-decode error
is returned verbatim (the `MaxXMLSize`-limited reader surfaces only through
that error), and a second decode that does not report `io.EOF` yields the
single-XML-value error. -/
def readXML (_t : Tools) (first second : XDecodeResult) : Option String :=
  match first with
  | XDecodeResult.eofErr => some "EOF"
  | XDecodeResult.otherXmlErr m => some m
  | XDecodeResult.success =>
    if second = XDecodeResult.eofErr then none
    else some "body must only contain a single XML value"

/-- Whether a character matches `[a-z\d]` (the complement of the class the
Slugify regexp `[^a-z\d]+` replaces). -/
def isLowerAlnum (c : Char) : Bool :=
  ('a' ≤ c && c ≤ 'z') || ('0' ≤ c && c ≤ '9')

/-- Helper of `collapseNonAlnum`: the flag says whether the previous
character was part of a run already replaced by '-'. Each maximal run of
characters outside `[a-z0-9]` contributes exactly one '-'. -/
def collapseAux : Bool → List Char → List Char
  | _, [] => []
  | inRun, c :: rest =>
    if isLowerAlnum c then c :: collapseAux false rest
    else if inRun then collapseAux true rest
    else '-' :: collapseAux true rest

/-- `regexp.MustCompile("[^a-z\\d]+").ReplaceAllString(s, "-")` of tools.go
line 373: every maximal run of characters outside `[a-z0-9]` becomes a
single '-'. -/
def collapseNonAlnum (l : List Char) : List Char :=
  collapseAux false l

/-- `strings.Trim(s, "-")` of tools.go line 373: drop '-' from both ends. -/
def trimDash (l : List Char) : List Char :=
  (((l.dropWhile (fun c => c == '-')).reverse.dropWhile
    (fun c => c == '-')).reverse)

/-- Shallow embedding of `Slugify` (tools.go 368-379); `strings.ToLower` is
modelled on the ASCII range (`lowerChar`), which the regexp's character
class makes observationally identical for every claim below. -/
def slugify (s : String) : Except String String :=
  if s = "" then Except.error "empty string not permitted"
  else
    let slug := trimDash (collapseNonAlnum (s.data.map lowerChar))
    if slug.length = 0 then
      Except.error "after removing characters, slug is zero length"
    else Except.ok (String.mk slug)

/-- `strings.TrimSpace`, modelled on ASCII whitespace. -/
def trimSpaceList (l : List Char) : List Char :=
  ((l.dropWhile Char.isWhitespace).reverse.dropWhile Char.isWhitespace).reverse

/-- `strings.HasPrefix p str` on character lists (first argument is the
sought prefix). -/
def startsWithList : List Char → List Char → Bool
  | [], _ => true
  | _ :: _, [] => false
  | p :: ps, c :: cs => p == c && startsWithList ps cs

/-- The prefixes `isSQLQuery` recognises (load_sql.go line 57). -/
def sqlMarkers : List (List Char) :=
  [("-- ").data, ("SELECT").data, ("INSERT").data, ("UPDATE").data,
   ("DELETE").data]

/-- `hasPrefixInList` of load_sql.go lines 69-76. -/
def hasPrefixInList (str : List Char) (prefixes : List (List Char)) : Bool :=
  prefixes.any (fun p => startsWithList p str)

/-- `isSQLQuery` of load_sql.go lines 56-58. -/
def isSQLQuery (line : List Char) : Bool :=
  hasPrefixInList line sqlMarkers

/-- The characters before the next occurrence of "-- " (exclusive), or the
whole list when there is none. -/
def takeUntilMarker : List Char → List Char
  | [] => []
  | c :: cs =>
    if startsWithList (("-- ").data) (c :: cs) then []
    else c :: takeUntilMarker cs

/-- `extractKey` of load_sql.go lines 61-66:
`strings.Split(line, "-- ")[1]` under the "-- " prefix guard is exactly the
segment between the first occurrence of "-- " (which the guard puts at
position 0) and the next occurrence or the end — "-- " cannot overlap
itself, so Go's non-overlapping leftmost split agrees with this scan. -/
def extractKey (line : List Char) : List Char :=
  if startsWithList (("-- ").data) line then takeUntilMarker (line.drop 3)
  else []

/-- `strings.Join queries " "` on character lists. -/
def joinSpace : List (List Char) → List Char
  | [] => []
  | [q] => q
  | q :: rest => q ++ ' ' :: joinSpace rest

/-- `strings.HasSuffix line ";"`. -/
def endsWithSemi (l : List Char) : Bool :=
  l.getLast? == some ';'

/-- Go map assignment `query[key] = v`: overwrite the existing entry or
append a new one. -/
def mapSet (m : List (List Char × List Char)) (k v : List Char) :
    List (List Char × List Char) :=
  if m.any (fun p => p.1 == k) then
    m.map (fun p => if p.1 == k then (k, v) else p)
  else m ++ [(k, v)]

/-- The scanner loop of `parseSQLQueries` (load_sql.go 35-48), with the
loop's three mutable variables (`key`, `queries`, `query`) as arguments. -/
def parseSQLLoop : List (List Char) → List Char → List (List Char) →
    List (List Char × List Char) → List (List Char × List Char)
  | [], _, _, m => m
  | rawLine :: rest, key, queries, m =>
    let line := trimSpaceList rawLine
    if isSQLQuery line || !key.isEmpty then
      if !key.isEmpty then
        let qs := queries ++ [line]
        if endsWithSemi line then
          parseSQLLoop rest [] [] (mapSet m key (joinSpace qs))
        else
          parseSQLLoop rest key qs m
      else
        parseSQLLoop rest (extractKey line) queries m
    else
      parseSQLLoop rest key queries m

/-- Shallow embedding of `parseSQLQueries` (load_sql.go 31-53): `lines` are
the scanner's lines; the scanner error path (lines 49-51) is absent for an
in-memory line list. -/
def parseSQLQueries (lines : List (List Char)) :
    List (List Char × List Char) :=
  parseSQLLoop lines [] [] []

/-! ## Theorems -/

/-- While the loop is accumulating (`key` non-empty) and no remaining line
ends with the ';' terminator after trimming, the query table is returned
unchanged: the open block is silently discarded. -/
theorem parseSQLLoop_no_semi (rest : List (List Char)) :
    ∀ (key : List Char) (queries : List (List Char))
      (m : List (List Char × List Char)),
    key ≠ [] → (∀ l ∈ rest, endsWithSemi (trimSpaceList l) = false) →
    parseSQLLoop rest key queries m = m := by
  induction rest with
  | nil => intro key qs m _ _; rfl
  | cons l rest ih =>
    intro key qs m hkey hns
    cases key with
    | nil => exact absurd rfl hkey
    | cons a as =>
      have hsemi : endsWithSemi (trimSpaceList l) = false :=
        hns l (List.mem_cons_self l rest)
      simp only [parseSQLLoop, List.isEmpty_cons, Bool.not_false,
        Bool.or_true, if_true, hsemi, Bool.false_eq_true, if_false]
      exact ih (a :: as) (qs ++ [trimSpaceList l]) m hkey
        (fun l' hl' => hns l' (List.mem_cons_of_mem _ hl'))

/-- C7: parsing the two-line input "-- TEST1" / "SELECT * FROM t WHERE
id=$1;" yields exactly the table mapping "TEST1" to
"SELECT * FROM t WHERE id=$1;" — the key comes from the comment header, the
stored text is the space-join of the trimmed body lines, and it keeps the
trailing ';'. -/
theorem c7_theorem :
    parseSQLQueries
        [("-- TEST1").data, ("SELECT * FROM t WHERE id=$1;").data] =
      [(("TEST1").data, ("SELECT * FROM t WHERE id=$1;").data)] := by
  decide

/-- C8: when a comment header is recognised (the trimmed first line starts
with "-- " and carries a non-empty key) but no subsequent line ends with
';' before the end of input, the parser stores nothing at all: the
unterminated block is silently discarded and no error is reported. -/
theorem c8_theorem (hdr : List Char) (rest : List (List Char))
    (hrecog : startsWithList (("-- ").data) (trimSpaceList hdr) = true)
    (hkey : extractKey (trimSpaceList hdr) ≠ [])
    (hnosemi : ∀ l ∈ rest, endsWithSemi (trimSpaceList l) = false) :
    parseSQLQueries (hdr :: rest) = [] := by
  have hsql : isSQLQuery (trimSpaceList hdr) = true := by
    simp only [isSQLQuery, hasPrefixInList, sqlMarkers, List.any_cons,
      hrecog, Bool.true_or]
  simp only [parseSQLQueries, parseSQLLoop, hsql, List.isEmpty_nil,
    Bool.not_true, Bool.or_false, if_true, Bool.false_eq_true, if_false]
  exact parseSQLLoop_no_semi rest (extractKey (trimSpaceList hdr)) [] []
    hkey hnosemi

/-- Witness for C8 at a concrete input: the header "-- TEST1" followed by
the unterminated line "SELECT 1" yields an empty table. -/
theorem c8_witness :
    parseSQLQueries [("-- TEST1").data, ("SELECT 1").data] = [] :=
  c8_theorem (("-- TEST1").data) [("SELECT 1").data] (by decide) (by decide)
    (by decide)

/-- C10: while the loop is accumulating a block (`key` already captured),
any next line whose trimmed text does not end with ';' — including a line
beginning with "-- " that would otherwise start a new named block — is
appended to the current block's lines, with the key and the table
unchanged: a new comment header never interrupts or restarts an open
block. -/
theorem c10_theorem (key : List Char) (queries : List (List Char))
    (m : List (List Char × List Char)) (l : List Char)
    (rest : List (List Char))
    (hkey : key ≠ [])
    (hnosemi : endsWithSemi (trimSpaceList l) = false) :
    parseSQLLoop (l :: rest) key queries m =
      parseSQLLoop rest key (queries ++ [trimSpaceList l]) m := by
  cases key with
  | nil => exact absurd rfl hkey
  | cons a as =>
    simp only [parseSQLLoop, List.isEmpty_cons, Bool.not_false,
      Bool.or_true, if_true, hnosemi, Bool.false_eq_true, if_false]

/-- Witness for C10 at a concrete input: with the block "A" open, the
header line "-- B" is absorbed into the open block's lines. -/
theorem c10_witness :
    parseSQLLoop [("-- B").data] (("A").data) [] [] =
      parseSQLLoop [] (("A").data) ([] ++ [trimSpaceList (("-- B").data)])
        [] :=
  c10_theorem (("A").data) [] [] (("-- B").data) [] (by decide) (by decide)

/-- C2: on a request whose multipart form contains zero file parts,
`UploadFiles` succeeds with the empty list, and `UploadOneFile`'s
`files[0]` on that empty list is out of range (a run-time panic), never a
normal typed-error return. -/
theorem c2_theorem (t : Tools) (uploadDir : String) (renameFile : Bool)
    (rnd : Nat → String) (fsys : List String) :
    (uploadFiles t [] uploadDir renameFile rnd fsys).1 =
        Except.ok ([] : List UploadedFile) ∧
    (uploadOneFile t [] uploadDir renameFile rnd fsys).1 =
        OneFileResult.indexOutOfRange :=
  ⟨rfl, rfl⟩

/-- C9: `UploadFiles` (and through it `UploadOneFile`) leaves the caller's
`Tools` with `MaxFileSize` overwritten to 10485760 exactly when it was
zero, and with every other field unchanged (the record update touches only
`MaxFileSize`). -/
theorem c9_theorem (t : Tools) (r : List FilePart) (uploadDir : String)
    (renameFile : Bool) (rnd : Nat → String) (fsys : List String) :
    (uploadFiles t r uploadDir renameFile rnd fsys).2.2 =
        (if t.MaxFileSize = 0 then { t with MaxFileSize := 10485760 }
         else t) ∧
    (uploadOneFile t r uploadDir renameFile rnd fsys).2.2 =
        (if t.MaxFileSize = 0 then { t with MaxFileSize := 10485760 }
         else t) :=
  ⟨rfl, rfl⟩

/-- `mutatedTools` only touches `MaxFileSize`. -/
theorem mutatedTools_allowedFileTypes (t : Tools) :
    (mutatedTools t).AllowedFileTypes = t.AllowedFileTypes := by
  unfold mutatedTools
  split <;> rfl

/-- A file part whose size passes the limit check but whose sniffed
content type matches no entry of a non-empty allow list makes the upload
loop fail with the file-type-not-permitted error at once, writing
nothing. -/
theorem processParts_type_denied (t : Tools) (uploadDir : String)
    (renameFile : Bool) (rnd : Nat → String) (i : Nat) (f : FilePart)
    (rest : List FilePart) (acc : List UploadedFile) (fsys : List String)
    (hsize : f.size ≤ t.MaxFileSize)
    (hne : t.AllowedFileTypes ≠ [])
    (hmatch : ∀ x ∈ t.AllowedFileTypes, eqFold f.sniffed x = false) :
    processParts t uploadDir renameFile rnd i (f :: rest) acc fsys =
      (Except.error fileTypeNotPermittedMsg, fsys) := by
  have hany : t.AllowedFileTypes.any (fun x => eqFold f.sniffed x) = false := by
    cases h : t.AllowedFileTypes.any (fun x => eqFold f.sniffed x) with
    | false => rfl
    | true =>
      obtain ⟨x, hx, hpx⟩ := List.any_eq_true.mp h
      rw [hmatch x hx] at hpx
      exact absurd hpx (by simp)
  have hie : t.AllowedFileTypes.isEmpty = false := by
    cases hl : t.AllowedFileTypes with
    | nil => exact absurd hl hne
    | cons a as => rfl
  simp only [processParts]
  rw [if_neg (not_lt.mpr hsize)]
  simp only [hie, hany, Bool.not_false, if_true]

/-- C3: for a single-file upload whose sniffed content type (compared
case-insensitively) matches no entry of the non-empty allow list — the
sniff happening because the file passed the size check — `UploadFiles`
fails with the file-type-not-permitted error and no file at all is created
in the destination directory. -/
theorem c3_theorem (t : Tools) (f : FilePart) (uploadDir : String)
    (renameFile : Bool) (rnd : Nat → String) (fsys : List String)
    (hne : t.AllowedFileTypes ≠ [])
    (hmatch : ∀ x ∈ t.AllowedFileTypes, eqFold f.sniffed x = false)
    (hsize : f.size ≤ (mutatedTools t).MaxFileSize) :
    (uploadFiles t [f] uploadDir renameFile rnd fsys).1 =
        Except.error fileTypeNotPermittedMsg ∧
    (uploadFiles t [f] uploadDir renameFile rnd fsys).2.1 = fsys := by
  have h := processParts_type_denied (mutatedTools t) uploadDir renameFile
    rnd 0 f [] [] fsys hsize
    (by rw [mutatedTools_allowedFileTypes]; exact hne)
    (by rw [mutatedTools_allowedFileTypes]; exact hmatch)
  have hu : uploadFiles t [f] uploadDir renameFile rnd fsys =
      (Except.error fileTypeNotPermittedMsg, fsys, mutatedTools t) := by
    simp only [uploadFiles, h]
  rw [hu]
  exact ⟨rfl, rfl⟩

/-- A concrete configuration: zero sizes, allow list `["image/jpeg"]`. -/
def witnessTools : Tools :=
  { MaxJSONSize := 0, MaxXMLSize := 0, MaxFileSize := 0,
    AllowedFileTypes := ["image/jpeg"], AllowUnknownFields := false }

/-- A concrete PNG file part: 100 bytes sniffed as image/png. -/
def witnessPng : FilePart :=
  { filename := "sample.png", size := 100, sniffed := "image/png" }

/-- Witness for C3 at a concrete input: a PNG upload against the allow
list `["image/jpeg"]` fails with the file-type error and writes nothing. -/
theorem c3_witness :
    (uploadFiles witnessTools [witnessPng] "./testdata/uploads" true
        (fun _ => "R") []).1 = Except.error fileTypeNotPermittedMsg ∧
    (uploadFiles witnessTools [witnessPng] "./testdata/uploads" true
        (fun _ => "R") []).2.1 = ([] : List String) :=
  c3_theorem witnessTools witnessPng "./testdata/uploads" true
    (fun _ => "R") [] (by decide) (by decide) (by decide)

/-- C4: whenever the content-type gate passes, the first decode succeeds
and the second decode does not report end-of-stream, `ReadJSON` fails with
"body must only contain a single JSON value" — which is exactly what
happens on a body of two concatenated JSON documents — and `ReadXML`
enforces the same for XML. -/
theorem c4_theorem (t : Tools) (ct : String) (js : JDecodeResult)
    (xs : XDecodeResult)
    (hct : ct = "" ∨ lowerStr ct = "application/json")
    (hjs : js ≠ JDecodeResult.eof) (hxs : xs ≠ XDecodeResult.eofErr) :
    readJSON t ct JDecodeResult.success js =
        some "body must only contain a single JSON value" ∧
    readXML t XDecodeResult.success xs =
        some "body must only contain a single XML value" := by
  constructor
  · simp only [readJSON]
    rw [if_neg (by
      rintro ⟨h1, h2⟩
      cases hct with
      | inl h => exact h1 h
      | inr h => exact h2 h)]
    simp only [decodeErrMsg]
    rw [if_neg hjs]
  · simp only [readXML]
    rw [if_neg hxs]

/-- Witness for C4 at a concrete input: a successful second decode (the
body held a second document) yields the single-value errors. -/
theorem c4_witness :
    readJSON witnessTools "" JDecodeResult.success JDecodeResult.success =
        some "body must only contain a single JSON value" ∧
    readXML witnessTools XDecodeResult.success XDecodeResult.success =
        some "body must only contain a single XML value" :=
  c4_theorem witnessTools "" JDecodeResult.success XDecodeResult.success
    (Or.inl rfl) (by decide) (by decide)

/-- C5: when the size-limited reader reports the body too large (the
"http: request body too large" outcome of the first decode), `ReadJSON`
fails with the payload-too-large message carrying the effective limit —
`MaxJSONSize` when non-zero, otherwise the fixed default 10485760. -/
theorem c5_theorem (t : Tools) (ct : String) (second : JDecodeResult)
    (hct : ct = "" ∨ lowerStr ct = "application/json") :
    readJSON t ct JDecodeResult.tooLarge second =
        some ("body must not be larger than " ++
          toString (effectiveMaxJSONSize t) ++ " bytes") ∧
    (t.MaxJSONSize ≠ 0 → effectiveMaxJSONSize t = t.MaxJSONSize) ∧
    (t.MaxJSONSize = 0 → effectiveMaxJSONSize t = 10485760) := by
  refine ⟨?_, ?_, ?_⟩
  · simp only [readJSON]
    rw [if_neg (by
      rintro ⟨h1, h2⟩
      cases hct with
      | inl h => exact h1 h
      | inr h => exact h2 h)]
    simp only [decodeErrMsg]
  · intro h
    simp only [effectiveMaxJSONSize, if_pos h]
  · intro h
    rw [effectiveMaxJSONSize, if_neg (by simp [h])]
    rfl

/-- Witness for C5 at a concrete input: with `MaxJSONSize = 0` the message
carries the default limit. -/
theorem c5_witness :
    readJSON witnessTools "" JDecodeResult.tooLarge JDecodeResult.success =
        some ("body must not be larger than " ++
          toString (effectiveMaxJSONSize witnessTools) ++ " bytes") ∧
    (witnessTools.MaxJSONSize ≠ 0 →
      effectiveMaxJSONSize witnessTools = witnessTools.MaxJSONSize) ∧
    (witnessTools.MaxJSONSize = 0 →
      effectiveMaxJSONSize witnessTools = 10485760) :=
  c5_theorem witnessTools "" JDecodeResult.success (Or.inl rfl)

/-- Every character the run-collapsing replacement emits is a lowercase
ASCII alphanumeric or the hyphen it inserts. -/
theorem collapseAux_mem (l : List Char) :
    ∀ (b : Bool) (c : Char), c ∈ collapseAux b l →
      isLowerAlnum c = true ∨ c = '-' := by
  induction l with
  | nil =>
    intro b c hc
    simp [collapseAux] at hc
  | cons x rest ih =>
    intro b c hc
    rw [show collapseAux b (x :: rest) =
        (if isLowerAlnum x then x :: collapseAux false rest
         else if b then collapseAux true rest
         else '-' :: collapseAux true rest) from rfl] at hc
    split at hc
    · next hx =>
      rcases List.mem_cons.mp hc with h | h
      · exact Or.inl (h ▸ hx)
      · exact ih false c h
    · split at hc
      · exact ih true c hc
      · rcases List.mem_cons.mp hc with h | h
        · exact Or.inr h
        · exact ih true c h

/-- Membership survives dropping a prefix. -/
theorem mem_of_mem_dropWhile {p : Char → Bool} {l : List Char} {c : Char}
    (h : c ∈ l.dropWhile p) : c ∈ l := by
  induction l with
  | nil => simp at h
  | cons x rest ih =>
    rw [List.dropWhile_cons] at h
    split at h
    · exact List.mem_cons_of_mem x (ih h)
    · exact h

/-- The head surviving a `dropWhile` does not satisfy the predicate. -/
theorem head?_dropWhile_not {p : Char → Bool} {l : List Char} {c : Char}
    (h : (l.dropWhile p).head? = some c) : p c = false := by
  induction l with
  | nil => simp at h
  | cons x rest ih =>
    rw [List.dropWhile_cons] at h
    split at h
    · exact ih h
    · next hx =>
      simp only [List.head?_cons, Option.some.injEq] at h
      subst h
      cases hpc : p x with
      | false => rfl
      | true => exact absurd hpc hx

/-- `dropWhile` keeps the last element when its result is non-empty. -/
theorem getLast?_dropWhile_ne_nil {p : Char → Bool} {l : List Char}
    (h : l.dropWhile p ≠ []) : (l.dropWhile p).getLast? = l.getLast? := by
  induction l with
  | nil => simp at h
  | cons x rest ih =>
    by_cases hx : p x = true
    · rw [List.dropWhile_cons, if_pos hx] at h
      rw [List.dropWhile_cons, if_pos hx, ih h]
      have hrest : rest ≠ [] := by
        intro he
        subst he
        simp at h
      cases rest with
      | nil => exact absurd rfl hrest
      | cons y t => rw [List.getLast?_cons_cons]
    · rw [List.dropWhile_cons, if_neg hx]

/-- Characters of the trimmed list come from the original. -/
theorem trimDash_mem {l : List Char} {c : Char} (h : c ∈ trimDash l) :
    c ∈ l := by
  unfold trimDash at h
  rw [List.mem_reverse] at h
  have h1 := mem_of_mem_dropWhile h
  rw [List.mem_reverse] at h1
  exact mem_of_mem_dropWhile h1

/-- The trimmed list never ends with '-'. -/
theorem trimDash_getLast_ne {l : List Char} {c : Char}
    (h : (trimDash l).getLast? = some c) : c ≠ '-' := by
  unfold trimDash at h
  rw [List.getLast?_reverse] at h
  have hpc := head?_dropWhile_not h
  intro he
  subst he
  simp at hpc

/-- The trimmed list never starts with '-'. -/
theorem trimDash_head_ne {l : List Char} {c : Char}
    (h : (trimDash l).head? = some c) : c ≠ '-' := by
  unfold trimDash at h
  rw [List.head?_reverse] at h
  have hne : (List.reverse (l.dropWhile (fun c => c == '-'))).dropWhile
      (fun c => c == '-') ≠ [] := by
    intro he
    rw [he] at h
    simp at h
  rw [getLast?_dropWhile_ne_nil hne, List.getLast?_reverse] at h
  have hpc := head?_dropWhile_not h
  intro he
  subst he
  simp at hpc

/-- Inside a run already replaced, all-bad input collapses to nothing. -/
theorem collapseAux_true_all_bad (l : List Char)
    (hbad : ∀ c ∈ l, isLowerAlnum c = false) : collapseAux true l = [] := by
  induction l with
  | nil => rfl
  | cons x rest ih =>
    have hx : isLowerAlnum x = false := hbad x (List.mem_cons_self x rest)
    rw [show collapseAux true (x :: rest) =
        (if isLowerAlnum x then x :: collapseAux false rest
         else collapseAux true rest) from rfl]
    rw [hx]
    simp only [Bool.false_eq_true, if_false]
    exact ih (fun c hc => hbad c (List.mem_cons_of_mem x hc))

/-- A non-empty input with no `[a-z0-9]` character collapses to a lone
hyphen. -/
theorem collapseNonAlnum_all_bad (l : List Char) (hne : l ≠ [])
    (hbad : ∀ c ∈ l, isLowerAlnum c = false) :
    collapseNonAlnum l = ['-'] := by
  cases l with
  | nil => exact absurd rfl hne
  | cons x rest =>
    have hx : isLowerAlnum x = false := hbad x (List.mem_cons_self x rest)
    rw [show collapseNonAlnum (x :: rest) =
        (if isLowerAlnum x then x :: collapseAux false rest
         else '-' :: collapseAux true rest) from rfl]
    rw [hx]
    simp only [Bool.false_eq_true, if_false, List.cons.injEq, true_and]
    exact collapseAux_true_all_bad rest
      (fun c hc => hbad c (List.mem_cons_of_mem x hc))

/-- C6: every slug `Slugify` returns contains only characters of
`[a-z0-9-]` and neither starts nor ends with '-'; the empty string fails
with the empty-input error; and every non-empty input with no ASCII
lowercase letter or digit after lower-casing fails with the
zero-length-slug error. -/
theorem c6_theorem :
    (∀ s out, slugify s = Except.ok out →
      (∀ c ∈ out.data, isLowerAlnum c = true ∨ c = '-') ∧
      out.data.head? ≠ some '-' ∧ out.data.getLast? ≠ some '-') ∧
    slugify "" = Except.error "empty string not permitted" ∧
    (∀ s, s ≠ "" → (∀ c ∈ s.data, isLowerAlnum (lowerChar c) = false) →
      slugify s =
        Except.error "after removing characters, slug is zero length") := by
  refine ⟨?_, rfl, ?_⟩
  · intro s out h
    simp only [slugify] at h
    split at h
    · exact absurd h (by simp)
    · split at h
      · exact absurd h (by simp)
      · have hout : out =
            String.mk (trimDash (collapseNonAlnum (s.data.map lowerChar))) := by
          injection h with h2
          exact h2.symm
        subst hout
        refine ⟨?_, ?_, ?_⟩
        · intro c hc
          exact collapseAux_mem _ false c (trimDash_mem hc)
        · intro hh
          exact trimDash_head_ne hh rfl
        · intro hh
          exact trimDash_getLast_ne hh rfl
  · intro s hs hbad
    have hdata : s.data ≠ [] := by
      intro he
      apply hs
      cases s with
      | mk l =>
        simp only at he
        subst he
        rfl
    have hmapne : s.data.map lowerChar ≠ [] := by
      intro he
      exact hdata (List.map_eq_nil_iff.mp he)
    have hbad2 : ∀ c ∈ s.data.map lowerChar, isLowerAlnum c = false := by
      intro c hc
      obtain ⟨a, ha, rfl⟩ := List.mem_map.mp hc
      exact hbad a ha
    have hcol : collapseNonAlnum (s.data.map lowerChar) = ['-'] :=
      collapseNonAlnum_all_bad _ hmapne hbad2
    have htrim : trimDash ['-'] = [] := rfl
    simp only [slugify, if_neg hs, hcol, htrim, List.length_nil, if_pos]

/-- A prime of 64 bits is odd. -/
theorem primeOutput64_odd {p : Nat} (h : primeOutput64 p) : p % 2 = 1 := by
  obtain ⟨hp, h63, _⟩ := h
  have h2 : p ≠ 2 := by
    intro he
    rw [he] at h63
    norm_num at h63
  exact Nat.odd_iff.mp (hp.odd_of_ne_two h2)

/-- At an odd index below 64 the alphabet never yields 'a' (its
position-0 character). -/
theorem randomStringSource_odd_ne_a :
    ∀ r : Nat, r < 64 → r % 2 = 1 → randomStringSource.getD r ' ' ≠ 'a' := by
  decide

/-- The alphabet has 64 characters. -/
theorem randomStringSource_length : randomStringSource.length = 64 := by
  decide

/-- C1 counterexample: the character 'a' — position 0 of
`randomStringSource` — is not a possible output of RandomString at any
position: no 64-bit prime selects it, because every such prime is odd and
so is its residue modulo 64. This refutes "every character of the alphabet
is a possible choice at every position, each with equal probability". -/
theorem c1_counterexample :
    ¬ ∃ p, primeOutput64 p ∧ randomString [p] 1 = ['a'] := by
  rintro ⟨p, hp, heq⟩
  have hodd : p % 2 = 1 := primeOutput64_odd hp
  have hone : randomString [p] 1 = [randomChar p] := rfl
  rw [hone] at heq
  have hchar : randomChar p = 'a' := by
    simp only [List.cons.injEq, and_true] at heq
    exact heq
  rw [randomChar, randomStringSource_length] at hchar
  exact randomStringSource_odd_ne_a (p % 64)
    (Nat.mod_lt _ (by norm_num))
    (by
      rw [Nat.mod_mod_of_dvd p (by norm_num : (2 : ℕ) ∣ 64)]
      exact hodd)
    hchar

/-- C1 as amended: given one odd random value per position (every output
of `rand.Prime(rand.Reader, 64)` is an odd prime), RandomString yields
exactly `n` characters, each from `randomStringSource` — but each taken
at an odd index, so only the 32 characters at odd positions of the
alphabet can ever occur. -/
theorem c1_theorem (ps : List Nat) (n : Nat) (hlen : n ≤ ps.length)
    (hodd : ∀ p ∈ ps, p % 2 = 1) :
    (randomString ps n).length = n ∧
    ∀ c ∈ randomString ps n, c ∈ randomStringSource ∧
      ∃ j, j < 64 ∧ j % 2 = 1 ∧ c = randomStringSource.getD j ' ' := by
  constructor
  · simp [randomString]
  · intro c hc
    simp only [randomString, List.mem_map, List.mem_range] at hc
    obtain ⟨i, hi, hci⟩ := hc
    have hip : i < ps.length := lt_of_lt_of_le hi hlen
    have hmem : ps.getD i 0 ∈ ps := by
      rw [List.getD_eq_getElem ps 0 hip]
      exact List.getElem_mem hip
    have hpodd : ps.getD i 0 % 2 = 1 := hodd _ hmem
    have hlt : ps.getD i 0 % 64 < 64 := Nat.mod_lt _ (by norm_num)
    have hjodd : ps.getD i 0 % 64 % 2 = 1 := by
      rw [Nat.mod_mod_of_dvd _ (by norm_num : (2 : ℕ) ∣ 64)]
      exact hpodd
    subst hci
    constructor
    · rw [randomChar, randomStringSource_length]
      have hlt2 : ps.getD i 0 % 64 < randomStringSource.length := by
        rw [randomStringSource_length]
        exact hlt
      rw [List.getD_eq_getElem _ _ hlt2]
      exact List.getElem_mem hlt2
    · exact ⟨ps.getD i 0 % 64, hlt, hjodd,
        by rw [randomChar, randomStringSource_length]⟩

/-- Witness for the amended C1 at a concrete input: one odd value, one
character, drawn from an odd position of the alphabet. -/
theorem c1_witness :
    (randomString [3] 1).length = 1 ∧
    ∀ c ∈ randomString [3] 1, c ∈ randomStringSource ∧
      ∃ j, j < 64 ∧ j % 2 = 1 ∧ c = randomStringSource.getD j ' ' :=
  c1_theorem [3] 1 (by decide) (by decide)

end Toolbox
